import Mathlib

/-!
Verification of the adapter-matrix outbox delivery pipeline.

This file gives a shallow embedding of the core of the repository:

* the event claim store (`internal/repository/adapter_state_repository.go`):
  the conditional upsert `ClaimEvent` and the unconditional updates
  `MarkSent`, `MarkRetry`, `MarkFailed`, plus `EmitDeliveryFailed`;
* the payload transformer (`internal/consumer/outbox_consumer.go`):
  `decodeEventPayload`, `renderTimetableMessage`, `safeText`;
* the per-event processing step `processEvent` with its failure handlers
  `handleFailure` and `handlePermanentFailure`, and the batch loop
  `pollTable`;
* the matrix dispatcher (`internal/matrix/client.go`): `isAllowed`,
  `isJoined`, `ensureJoined`, `SendMessage`.

Modelling conventions: event ids are taken to be already-parsed valid UUIDs
(no claim concerns the malformed-id path), timestamps are abstract `Nat`
values, the claim-state table is modelled per event id as an
`Option ClaimRow`, and the SQL database is assumed reachable except where a
store-failure flag is threaded explicitly.  JSON payload bytes are modelled
as either a malformed blob or a well-formed object giving each field that
any of the Go payload structs reads (a missing JSON field decodes to the Go
zero value, i.e. the empty string / empty list, exactly as
`encoding/json` produces).
-/

namespace AdapterMatrix

/-- Delivery status of a claim row: the `status` column of
`adapter_event_state`, restricted to the three constants of
`adapter_state_repository.go`. -/
inductive Status where
  | pending
  | sent
  | failed
deriving DecidableEq, Repr

/-- One row of the `adapter_event_state` table (for a fixed event id):
attempt counter, status, nullable last error, and update timestamp. -/
structure ClaimRow where
  attempts : Nat
  status : Status
  lastError : Option String
  updatedAt : Nat
deriving DecidableEq, Repr

/-- A status is terminal when it is `sent` or `failed`. -/
def Status.isTerminal : Status → Bool
  | .sent => true
  | .failed => true
  | .pending => false

/-- The conditional upsert of `ClaimEvent`: insert
`(attempts=1, status=pending, last_error=NULL)` when no row exists;
otherwise increment `attempts` and set `status=pending` only when the
current status is neither `sent` nor `failed` (the SQL
`ON CONFLICT ... DO UPDATE ... WHERE status NOT IN (sent, failed)`).
Returns the `RETURNING attempts` value and the claimed flag; when the
guarded update does not fire the query returns no row and Go returns
`(0, false)`. -/
def claimEvent (st : Option ClaimRow) (now : Nat) : Nat × Bool × Option ClaimRow :=
  match st with
  | none => (1, true, some ⟨1, .pending, none, now⟩)
  | some r =>
    if r.status ≠ .sent ∧ r.status ≠ .failed then
      (r.attempts + 1, true,
        some { r with attempts := r.attempts + 1, status := .pending, updatedAt := now })
    else
      (0, false, some r)

/-- The unconditional `MarkSent` update: set `status=sent`, clear
`last_error`, touch `updated_at`, keyed only by `event_id` (an UPDATE of a
missing row changes nothing). -/
def markSent (st : Option ClaimRow) (now : Nat) : Option ClaimRow :=
  st.map fun r => { r with status := .sent, lastError := none, updatedAt := now }

/-- The unconditional `MarkRetry` update: set `status=pending`, record the
error text in `last_error`, touch `updated_at`; `attempts` is not in the
SET clause. -/
def markRetry (st : Option ClaimRow) (errText : String) (now : Nat) : Option ClaimRow :=
  st.map fun r => { r with status := .pending, lastError := some errText, updatedAt := now }

/-- The unconditional `MarkFailed` update: set `status=failed`, record the
error text in `last_error`, touch `updated_at`. -/
def markFailed (st : Option ClaimRow) (errText : String) (now : Nat) : Option ClaimRow :=
  st.map fun r => { r with status := .failed, lastError := some errText, updatedAt := now }

/-- Idempotent terminality of the claim operation: on a row whose status is
`sent` or `failed`, `claimEvent` returns `claimed = false` and leaves every
field of the row (attempts, status, last_error, updated_at) unchanged. -/
theorem claimEvent_terminal_noop (r : ClaimRow) (now : Nat)
    (h : r.status = .sent ∨ r.status = .failed) :
    claimEvent (some r) now = (0, false, some r) := by
  rcases h with h | h <;> simp [claimEvent, h]

theorem claimEvent_terminal_noop_witness :
    claimEvent (some ⟨3, .sent, some "boom", 5⟩) 7 = (0, false, some ⟨3, .sent, some "boom", 5⟩) ∧
    claimEvent (some ⟨2, .failed, none, 1⟩) 9 = (0, false, some ⟨2, .failed, none, 1⟩) :=
  ⟨claimEvent_terminal_noop ⟨3, .sent, some "boom", 5⟩ 7 (Or.inl rfl),
   claimEvent_terminal_noop ⟨2, .failed, none, 1⟩ 9 (Or.inr rfl)⟩

/-- Full functional specification of the claim upsert: absent row inserts
`attempts = 1, status = pending` and returns `(1, claimed = true)`; a
non-terminal row has `attempts` incremented by one and `status` set to
`pending`, returning the new attempts with `claimed = true`; a terminal row
is returned untouched with `claimed = false` and attempts value `0`
(meaningless). -/
theorem claimEvent_upsert_spec (st : Option ClaimRow) (now : Nat) :
    (st = none →
      claimEvent st now = (1, true, some ⟨1, .pending, none, now⟩)) ∧
    (∀ r, st = some r → r.status ≠ .sent → r.status ≠ .failed →
      claimEvent st now =
        (r.attempts + 1, true, some ⟨r.attempts + 1, .pending, r.lastError, now⟩)) ∧
    (∀ r, st = some r → (r.status = .sent ∨ r.status = .failed) →
      claimEvent st now = (0, false, some r)) := by
  refine ⟨fun h => by subst h; rfl, fun r h h1 h2 => ?_, fun r h ht => ?_⟩
  · subst h; simp [claimEvent, h1, h2]
  · subst h; rcases ht with ht | ht <;> simp [claimEvent, ht]

theorem claimEvent_upsert_spec_witness :
    claimEvent none 4 = (1, true, some ⟨1, .pending, none, 4⟩) ∧
    claimEvent (some ⟨2, .pending, some "e", 0⟩) 4 =
      (3, true, some ⟨3, .pending, some "e", 4⟩) ∧
    claimEvent (some ⟨2, .sent, none, 0⟩) 4 = (0, false, some ⟨2, .sent, none, 0⟩) :=
  ⟨(claimEvent_upsert_spec none 4).1 rfl,
   (claimEvent_upsert_spec (some ⟨2, .pending, some "e", 0⟩) 4).2.1
     ⟨2, .pending, some "e", 0⟩ rfl (by decide) (by decide),
   (claimEvent_upsert_spec (some ⟨2, .sent, none, 0⟩) 4).2.2
     ⟨2, .sent, none, 0⟩ rfl (Or.inl rfl)⟩

/-- Frame property of `MarkRetry`: on an existing row it sets
`status = pending`, records the error text as `last_error`, touches
`updated_at`, and leaves `attempts` unchanged — no other field is
modified. -/
theorem markRetry_frame (r : ClaimRow) (errText : String) (now : Nat) :
    markRetry (some r) errText now = some ⟨r.attempts, .pending, some errText, now⟩ := by
  rfl

/-- The mark operations are unconditional updates keyed only by the event
id: applied to a row whose status is already terminal (`sent` or `failed`)
they still overwrite it — `markRetry` drags a terminal row back to
`pending`, `markSent` and `markFailed` likewise rewrite status and
last_error unconditionally.  Hence terminality is enforced solely by
`claimEvent`'s conditional upsert. -/
theorem marks_unconditional_on_terminal (r : ClaimRow) (errText : String) (now : Nat)
    (_h : r.status = .sent ∨ r.status = .failed) :
    markRetry (some r) errText now = some ⟨r.attempts, .pending, some errText, now⟩ ∧
    markSent (some r) now = some ⟨r.attempts, .sent, none, now⟩ ∧
    markFailed (some r) errText now = some ⟨r.attempts, .failed, some errText, now⟩ := by
  exact ⟨rfl, rfl, rfl⟩

theorem marks_unconditional_on_terminal_witness :
    markRetry (some ⟨4, .failed, some "old", 2⟩) "new" 9 = some ⟨4, .pending, some "new", 9⟩ ∧
    markSent (some ⟨4, .failed, some "old", 2⟩) 9 = some ⟨4, .sent, none, 9⟩ ∧
    markFailed (some ⟨4, .failed, some "old", 2⟩) "new" 9 = some ⟨4, .failed, some "new", 9⟩ :=
  marks_unconditional_on_terminal ⟨4, .failed, some "old", 2⟩ "new" 9 (Or.inr rfl)

/-- Drops leading whitespace characters from a character list. -/
def dropLeadingWs : List Char → List Char
  | [] => []
  | c :: cs => if c.isWhitespace then dropLeadingWs cs else c :: cs

/-- Model of Go's `strings.TrimSpace`: remove leading and trailing
whitespace (via a structurally recursive definition, so that terms
evaluate inside the kernel). -/
def trimString (s : String) : String :=
  ⟨(dropLeadingWs (dropLeadingWs s.data).reverse).reverse⟩

/-- Model of Go's `strings.ToLower`: lowercase every character. -/
def lowerString (s : String) : String :=
  ⟨s.data.map Char.toLower⟩

/-- One slot record of the timetable payloads
(`timetableSlotPayload` in `outbox_consumer.go`). -/
structure TimetableSlot where
  slotIndex : Int
  courseCode : String
  startTime : String
  endTime : String
  venue : String
  status : String
deriving DecidableEq, Repr

/-- Field projections of a well-formed JSON payload object: the union of
the fields read by `MessagePayload`, `timetableAnnouncedPayload` and
`timetableUpdatedPayload`.  A field absent from the JSON decodes to the Go
zero value (empty string / empty slice), which the defaults reproduce. -/
structure RawFields where
  roomId : String := ""
  body : String := ""
  format : String := ""
  classId : String := ""
  date : String := ""
  matrixRoomId : String := ""
  template : String := ""
  updateTemplate : String := ""
  slots : List TimetableSlot := []
  updatedBy : String := ""
deriving Repr

/-- Payload bytes as seen by `json.Unmarshal`: either malformed (every
unmarshal into a struct fails) or a well-formed JSON object with the given
field projections. -/
inductive PayloadBytes where
  | malformed
  | obj (fields : RawFields)

/-- The canonical message produced by decoding
(`MessagePayload` in `outbox_consumer.go`). -/
structure MessagePayload where
  roomId : String
  body : String
  format : String
deriving DecidableEq, Repr

/-- Helper `safeText`: trim, and render an empty or whitespace-only field
as the literal placeholder `-`. -/
def safeText (value : String) : String :=
  let trimmed := trimString value
  if trimmed = "" then "-" else trimmed

/-- Renders a timetable message (`renderTimetableMessage`): a title line
(trimmed template text, defaulting to `Timetable update`), an optional
`Date: <date>` line when the date is non-blank, then one line per slot
`N. <course> (<start>-<end>) @ <venue> [<status>]`, joined by newlines. -/
def renderTimetableMessage (templateText date : String) (slots : List TimetableSlot) : String :=
  let title := if trimString templateText = "" then "Timetable update" else trimString templateText
  let dateLines := if trimString date ≠ "" then ["Date: " ++ date] else []
  let slotLines := slots.map fun slot =>
    toString slot.slotIndex ++ ". " ++ safeText slot.courseCode ++ " (" ++
      safeText slot.startTime ++ "-" ++ safeText slot.endTime ++ ") @ " ++
      safeText slot.venue ++ " [" ++ safeText slot.status ++ "]"
  String.intercalate "\n" (title :: (dateLines ++ slotLines))

/-- Decoder `decodeEventPayload`: first try the generic `MessagePayload`
shape and use it unmodified when it carries a non-blank room id or body;
otherwise dispatch on the trimmed event type to the two timetable shapes
(requiring a non-blank `matrix_room_id` and rendering the body with format
`markdown`); anything else is an error. -/
def decodeEventPayload (eventType : String) (payloadBytes : PayloadBytes) :
    Except String MessagePayload :=
  match payloadBytes with
  | .malformed =>
    match trimString eventType with
    | "DailyTimetableAnnounced" => .error "unmarshal error"
    | "TimetableUpdated" => .error "unmarshal error"
    | _ => .error "unsupported event payload"
  | .obj f =>
    if trimString f.roomId ≠ "" ∨ trimString f.body ≠ "" then
      .ok ⟨f.roomId, f.body, f.format⟩
    else
      match trimString eventType with
      | "DailyTimetableAnnounced" =>
        if trimString f.matrixRoomId = "" then
          .error "daily announcement missing matrix_room_id"
        else
          .ok ⟨f.matrixRoomId, renderTimetableMessage f.template f.date f.slots, "markdown"⟩
      | "TimetableUpdated" =>
        if trimString f.matrixRoomId = "" then
          .error "timetable update missing matrix_room_id"
        else
          .ok ⟨f.matrixRoomId, renderTimetableMessage f.updateTemplate f.date f.slots, "markdown"⟩
      | _ => .error "unsupported event payload"

/-- Render formatting example: a `DailyTimetableAnnounced` payload with
template `Today`, date `2024-05-01` and the single slot
`{1, CS101, 09:00, 10:00, Room A, confirmed}` decodes to the body
`Today\nDate: 2024-05-01\n1. CS101 (09:00-10:00) @ Room A [confirmed]`
with format `markdown`, for any non-blank target room; and blank slot
fields render as the placeholder `-`. -/
theorem renderDailySchedule_example (room : String) (h : trimString room ≠ "") :
    decodeEventPayload "DailyTimetableAnnounced"
      (.obj { matrixRoomId := room, template := "Today", date := "2024-05-01",
              slots := [⟨1, "CS101", "09:00", "10:00", "Room A", "confirmed"⟩] }) =
      .ok ⟨room, "Today\nDate: 2024-05-01\n1. CS101 (09:00-10:00) @ Room A [confirmed]",
           "markdown"⟩ ∧
    renderTimetableMessage "  " "" [⟨2, " ", "", "", "", ""⟩] =
      "Timetable update\n2. - (---) @ - [-]" := by
  refine ⟨?_, by decide⟩
  simp only [decodeEventPayload]
  rw [if_neg (by decide)]
  have ht : trimString "DailyTimetableAnnounced" = "DailyTimetableAnnounced" := by decide
  rw [ht, if_neg h]
  rfl

theorem renderDailySchedule_example_witness :
    decodeEventPayload "DailyTimetableAnnounced"
      (.obj { matrixRoomId := "!class:example.org", template := "Today", date := "2024-05-01",
              slots := [⟨1, "CS101", "09:00", "10:00", "Room A", "confirmed"⟩] }) =
      .ok ⟨"!class:example.org",
           "Today\nDate: 2024-05-01\n1. CS101 (09:00-10:00) @ Room A [confirmed]",
           "markdown"⟩ :=
  (renderDailySchedule_example "!class:example.org" (by decide)).1

/-- Per-event delivery state: the claim-store row for the event and the
number of `DeliveryFailed` compensating rows this system has inserted into
the adapter outbox table for it. -/
structure EventState where
  row : Option ClaimRow
  emitted : Nat
deriving DecidableEq, Repr

/-- Models `EmitDeliveryFailed`: one more `DeliveryFailed` row (with the
original event id, adapter tag and reason) is inserted into the adapter
outbox table; the model keeps the count of such insertions. -/
def emitDeliveryFailed (st : EventState) : EventState :=
  { st with emitted := st.emitted + 1 }

/-- The `handlePermanentFailure` path: `MarkFailed` with the error text,
then `EmitDeliveryFailed`. -/
def handlePermanentFailure (st : EventState) (errText : String) (now : Nat) : EventState :=
  emitDeliveryFailed { st with row := markFailed st.row errText now }

/-- The `handleFailure` path for decode/validation errors: claim the event
(propagating a store error, modelled by the `claimFails` flag); skip when
not claimed; permanently fail when the returned attempts have reached
`maxRetries`; otherwise `MarkRetry` with the error text. -/
def handleFailure (maxRetries : Nat) (claimFails : Bool) (st : EventState)
    (errText : String) (now : Nat) : EventState × Option String :=
  if claimFails then (st, some "claim store unreachable")
  else
    let res := claimEvent st.row now
    let st1 := { st with row := res.2.2 }
    if !res.2.1 then (st1, none)
    else if res.1 ≥ maxRetries then (handlePermanentFailure st1 errText now, none)
    else ({ st1 with row := markRetry st1.row errText now }, none)

/-- Observable outcome of one `processEvent` call: the resulting per-event
state, the error returned to the caller (logged by `pollTable`), and
whether a `ClaimEvent` call and a `SendMessage` call were issued. -/
structure ProcOut where
  state : EventState
  errOut : Option String
  claimCalled : Bool
  sendCalled : Bool
deriving Repr

/-- One `processEvent` step: decode the payload (failures go to
`handleFailure`), normalise and validate the format (failures likewise),
then claim the event (skipping when already terminal), dispatch, and mark
sent / retry / permanently failed according to the dispatch outcome and
the attempts returned at claim time.  `claimFails` models the claim store
being unreachable for this call, `sendOk` the dispatch outcome, and
`sendErrText` the dispatch error's text. -/
def processEvent (maxRetries : Nat) (claimFails sendOk : Bool) (eventType : String)
    (payloadBytes : PayloadBytes) (sendErrText : String) (st : EventState) (now : Nat) :
    ProcOut :=
  match decodeEventPayload eventType payloadBytes with
  | .error e =>
    let res := handleFailure maxRetries claimFails st ("payload decode: " ++ e) now
    ⟨res.1, res.2, true, false⟩
  | .ok payload =>
    if payload.roomId = "" ∨ payload.body = "" ∨ lowerString (trimString payload.format) = "" then
      let res := handleFailure maxRetries claimFails st "payload missing required fields" now
      ⟨res.1, res.2, true, false⟩
    else if lowerString (trimString payload.format) ≠ "plain" ∧
        lowerString (trimString payload.format) ≠ "markdown" ∧
        lowerString (trimString payload.format) ≠ "html" then
      let res := handleFailure maxRetries claimFails st "unsupported payload format" now
      ⟨res.1, res.2, true, false⟩
    else if claimFails then
      ⟨st, some "claim store unreachable", true, false⟩
    else
      let res := claimEvent st.row now
      let st1 := { st with row := res.2.2 }
      if !res.2.1 then ⟨st1, none, true, false⟩
      else if !sendOk then
        if res.1 ≥ maxRetries then ⟨handlePermanentFailure st1 sendErrText now, none, true, true⟩
        else ⟨{ st1 with row := markRetry st1.row sendErrText now }, none, true, true⟩
      else ⟨{ st1 with row := markSent st1.row now }, none, true, true⟩

/-- Counterexample to the claim that an invalid format is rejected before
any claim occurs: a generic payload with format `latex` reaches
`handleFailure`, which does call `ClaimEvent` — the claim row is created
with attempts 1 and the format error recorded as last_error. -/
theorem invalidFormat_claim_called_cex :
    (processEvent 3 false true "SomeEvent"
      (.obj { roomId := "!r:example.org", body := "hello", format := "latex" })
      "send error" ⟨none, 0⟩ 0).claimCalled = true ∧
    (processEvent 3 false true "SomeEvent"
      (.obj { roomId := "!r:example.org", body := "hello", format := "latex" })
      "send error" ⟨none, 0⟩ 0).state.row =
      some ⟨1, .pending, some "unsupported payload format", 0⟩ := by
  decide

/-- Amended invalid-format property: when the decoded payload's format
(trimmed and lowercased) is none of `plain`, `markdown`, `html`, the event
is rejected before dispatch — no `SendMessage` call is made — but a
`ClaimEvent` call is made through the failure handler, so the event
consumes retry budget. -/
theorem invalidFormat_rejected_before_dispatch (maxRetries : Nat) (claimFails sendOk : Bool)
    (eventType sendErrText : String) (payloadBytes : PayloadBytes) (p : MessagePayload)
    (st : EventState) (now : Nat)
    (hdec : decodeEventPayload eventType payloadBytes = .ok p)
    (h1 : lowerString (trimString p.format) ≠ "plain")
    (h2 : lowerString (trimString p.format) ≠ "markdown")
    (h3 : lowerString (trimString p.format) ≠ "html") :
    (processEvent maxRetries claimFails sendOk eventType payloadBytes sendErrText st now).sendCalled
      = false ∧
    (processEvent maxRetries claimFails sendOk eventType payloadBytes sendErrText st now).claimCalled
      = true := by
  unfold processEvent
  rw [hdec]
  dsimp only
  by_cases hm : p.roomId = "" ∨ p.body = "" ∨ lowerString (trimString p.format) = ""
  · rw [if_pos hm]
    exact ⟨rfl, rfl⟩
  · rw [if_neg hm, if_pos ⟨h1, h2, h3⟩]
    exact ⟨rfl, rfl⟩

theorem invalidFormat_rejected_before_dispatch_witness :
    (processEvent 3 false true "SomeEvent"
      (.obj { roomId := "!r:example.org", body := "hello", format := "latex" })
      "send error" ⟨none, 0⟩ 0).sendCalled = false :=
  (invalidFormat_rejected_before_dispatch 3 false true "SomeEvent" "send error"
    (.obj { roomId := "!r:example.org", body := "hello", format := "latex" })
    ⟨"!r:example.org", "hello", "latex"⟩ ⟨none, 0⟩ 0
    rfl (by decide) (by decide) (by decide)).1

/-- A payload is dispatchable when it decodes to a message that passes the
validation of `processEvent`: non-empty room id and body, and a normalised
format among `plain`, `markdown`, `html`. -/
def dispatchable (p : MessagePayload) : Prop :=
  p.roomId ≠ "" ∧ p.body ≠ "" ∧
    (lowerString (trimString p.format) = "plain" ∨
     lowerString (trimString p.format) = "markdown" ∨
     lowerString (trimString p.format) = "html")

/-- On a dispatchable payload `processEvent` reduces to the claim-dispatch
path (no validation failure fires). -/
theorem processEvent_dispatch (maxRetries : Nat) (sendOk : Bool)
    (eventType sendErrText : String) (payloadBytes : PayloadBytes) (p : MessagePayload)
    (st : EventState) (now : Nat)
    (hdec : decodeEventPayload eventType payloadBytes = .ok p)
    (hp : dispatchable p) :
    processEvent maxRetries false sendOk eventType payloadBytes sendErrText st now =
      (let res := claimEvent st.row now
       let st1 : EventState := { st with row := res.2.2 }
       if !res.2.1 then ⟨st1, none, true, false⟩
       else if !sendOk then
         if res.1 ≥ maxRetries then ⟨handlePermanentFailure st1 sendErrText now, none, true, true⟩
         else ⟨{ st1 with row := markRetry st1.row sendErrText now }, none, true, true⟩
       else ⟨{ st1 with row := markSent st1.row now }, none, true, true⟩) := by
  obtain ⟨hroom, hbody, hfmt⟩ := hp
  have hfne : lowerString (trimString p.format) ≠ "" := by
    rcases hfmt with h | h | h <;> rw [h] <;> decide
  unfold processEvent
  rw [hdec]
  dsimp only
  rw [if_neg (by tauto)]
  rw [if_neg (by rcases hfmt with h | h | h <;> exact fun hc => by tauto)]
  rfl

/-- One failing dispatch step starting from an unclaimed event: the claim
inserts attempts 1, and the event is retried or permanently failed
according to `1 ≥ maxRetries`. -/
theorem processEvent_fail_step_none (maxRetries : Nat)
    (eventType sendErrText : String) (payloadBytes : PayloadBytes) (p : MessagePayload)
    (emitted now : Nat)
    (hdec : decodeEventPayload eventType payloadBytes = .ok p)
    (hp : dispatchable p) :
    (processEvent maxRetries false false eventType payloadBytes sendErrText
        ⟨none, emitted⟩ now).state =
      if 1 ≥ maxRetries then ⟨some ⟨1, .failed, some sendErrText, now⟩, emitted + 1⟩
      else ⟨some ⟨1, .pending, some sendErrText, now⟩, emitted⟩ := by
  rw [processEvent_dispatch maxRetries false eventType sendErrText payloadBytes p
    ⟨none, emitted⟩ now hdec hp]
  by_cases h : 1 ≥ maxRetries
  · simp [claimEvent, handlePermanentFailure, emitDeliveryFailed, markFailed, markRetry, h]
  · simp [claimEvent, handlePermanentFailure, emitDeliveryFailed, markFailed, markRetry, h]

/-- One failing dispatch step on a pending row: attempts go from `a` to
`a + 1`, and the event is retried or permanently failed according to
`a + 1 ≥ maxRetries`. -/
theorem processEvent_fail_step_pending (maxRetries : Nat)
    (eventType sendErrText : String) (payloadBytes : PayloadBytes) (p : MessagePayload)
    (a : Nat) (lastErr : Option String) (t emitted now : Nat)
    (hdec : decodeEventPayload eventType payloadBytes = .ok p)
    (hp : dispatchable p) :
    (processEvent maxRetries false false eventType payloadBytes sendErrText
        ⟨some ⟨a, .pending, lastErr, t⟩, emitted⟩ now).state =
      if a + 1 ≥ maxRetries then ⟨some ⟨a + 1, .failed, some sendErrText, now⟩, emitted + 1⟩
      else ⟨some ⟨a + 1, .pending, some sendErrText, now⟩, emitted⟩ := by
  rw [processEvent_dispatch maxRetries false eventType sendErrText payloadBytes p
    ⟨some ⟨a, .pending, lastErr, t⟩, emitted⟩ now hdec hp]
  by_cases h : a + 1 ≥ maxRetries
  · simp [claimEvent, handlePermanentFailure, emitDeliveryFailed, markFailed, markRetry, h]
  · simp [claimEvent, handlePermanentFailure, emitDeliveryFailed, markFailed, markRetry, h]

/-- A step on a terminal row is a no-op: the claim is refused and the
event is skipped without dispatch. -/
theorem processEvent_step_terminal (maxRetries : Nat) (sendOk : Bool)
    (eventType sendErrText : String) (payloadBytes : PayloadBytes) (p : MessagePayload)
    (r : ClaimRow) (emitted now : Nat)
    (hdec : decodeEventPayload eventType payloadBytes = .ok p)
    (hp : dispatchable p)
    (hterm : r.status = .sent ∨ r.status = .failed) :
    (processEvent maxRetries false sendOk eventType payloadBytes sendErrText
        ⟨some r, emitted⟩ now).state = ⟨some r, emitted⟩ := by
  rw [processEvent_dispatch maxRetries sendOk eventType sendErrText payloadBytes p
    ⟨some r, emitted⟩ now hdec hp]
  rcases hterm with h | h <;> simp [claimEvent, h]

/-- Repeated poll cycles on one event whose dispatch fails every time:
`failCycles ... n` is the per-event state after `n` cycles, each cycle
running `processEvent` with a failing `SendMessage` (the cycle index is
used as the timestamp). -/
def failCycles (maxRetries : Nat) (eventType : String) (payloadBytes : PayloadBytes)
    (sendErrText : String) : Nat → EventState
  | 0 => ⟨none, 0⟩
  | n + 1 =>
    (processEvent maxRetries false false eventType payloadBytes sendErrText
      (failCycles maxRetries eventType payloadBytes sendErrText n) n).state

/-- Closed form of the always-failing delivery loop: before `maxRetries`
cycles the row is pending with attempts equal to the number of cycles;
from cycle `maxRetries` on it is failed with attempts `maxRetries` and
exactly one emitted compensating event, and never changes again. -/
theorem failCycles_closed (maxRetries : Nat) (eventType sendErrText : String)
    (payloadBytes : PayloadBytes) (p : MessagePayload)
    (hmr : 1 ≤ maxRetries)
    (hdec : decodeEventPayload eventType payloadBytes = .ok p)
    (hp : dispatchable p) :
    ∀ n, failCycles maxRetries eventType payloadBytes sendErrText n =
      if n = 0 then ⟨none, 0⟩
      else if n < maxRetries then ⟨some ⟨n, .pending, some sendErrText, n - 1⟩, 0⟩
      else ⟨some ⟨maxRetries, .failed, some sendErrText, maxRetries - 1⟩, 1⟩ := by
  intro n
  induction n with
  | zero => rfl
  | succ n ih =>
    rw [failCycles, ih]
    by_cases h0 : n = 0
    · subst h0
      rw [if_pos rfl]
      rw [processEvent_fail_step_none maxRetries eventType sendErrText payloadBytes p 0 0
        hdec hp]
      by_cases h1 : 1 ≥ maxRetries
      · rw [if_pos h1, if_neg (by omega), if_neg (by omega)]
        have : maxRetries = 1 := by omega
        rw [this]
      · rw [if_neg h1, if_neg (by omega), if_pos (by omega)]
    · by_cases hlt : n < maxRetries
      · rw [if_neg h0, if_pos hlt]
        rw [processEvent_fail_step_pending maxRetries eventType sendErrText payloadBytes p
          n (some sendErrText) (n - 1) 0 n hdec hp]
        by_cases h2 : n + 1 ≥ maxRetries
        · rw [if_pos h2, if_neg (by omega), if_neg (by omega)]
          have : maxRetries = n + 1 := by omega
          rw [this]
          simp
        · rw [if_neg h2, if_neg (by omega), if_pos (by omega)]
          simp
      · rw [if_neg h0, if_neg hlt]
        rw [processEvent_step_terminal maxRetries false eventType sendErrText payloadBytes p
          ⟨maxRetries, .failed, some sendErrText, maxRetries - 1⟩ 1 n hdec hp (Or.inr rfl)]
        rw [if_neg (by omega), if_neg (by omega)]

/-- Counterexample to the `attempts = R + 1` exhaustion boundary: with
`maxRetries = 1`, a valid event whose dispatch always fails is marked
`failed` (with one emitted `DeliveryFailed`) already at attempts `1`, not
at attempts `R + 1 = 2`. -/
theorem retryExhaustion_cex :
    failCycles 1 "SomeEvent" (.obj { roomId := "!r:example.org", body := "hi", format := "plain" })
      "network down" 1 =
      ⟨some ⟨1, .failed, some "network down", 0⟩, 1⟩ ∧
    (1 : Nat) ≠ 1 + 1 := by
  decide

/-- Amended exhaustion property: with `maxRetries = R ≥ 1`, an event that
fails dispatch on every attempt reaches `status = failed` exactly when
`attempts` first equals `R` (the code fails permanently when the
claim-returned attempts reach `maxRetries`), and exactly one
`DeliveryFailed` compensating event is emitted into the adapter outbox;
before that the row is pending with attempts equal to the number of
cycles. -/
theorem retryExhaustion_failed_at_maxRetries (maxRetries : Nat)
    (eventType sendErrText : String) (payloadBytes : PayloadBytes) (p : MessagePayload)
    (hmr : 1 ≤ maxRetries)
    (hdec : decodeEventPayload eventType payloadBytes = .ok p)
    (hp : dispatchable p) (n : Nat) :
    ((failCycles maxRetries eventType payloadBytes sendErrText n).row.map ClaimRow.status
        = some .failed ↔ maxRetries ≤ n) ∧
    ((failCycles maxRetries eventType payloadBytes sendErrText n).emitted
        = if maxRetries ≤ n then 1 else 0) ∧
    (maxRetries ≤ n →
      (failCycles maxRetries eventType payloadBytes sendErrText n).row
        = some ⟨maxRetries, .failed, some sendErrText, maxRetries - 1⟩) ∧
    (0 < n → n < maxRetries →
      (failCycles maxRetries eventType payloadBytes sendErrText n).row
        = some ⟨n, .pending, some sendErrText, n - 1⟩) := by
  rw [failCycles_closed maxRetries eventType sendErrText payloadBytes p hmr hdec hp n]
  by_cases h0 : n = 0
  · subst h0
    rw [if_pos rfl]
    refine ⟨by simp; omega, by rw [if_neg (by omega)], fun h => by omega, fun h => by omega⟩
  · by_cases hlt : n < maxRetries
    · rw [if_neg h0, if_pos hlt]
      refine ⟨by simp; omega, by rw [if_neg (by omega)], fun h => by omega, fun _ _ => rfl⟩
    · rw [if_neg h0, if_neg hlt]
      refine ⟨by simp; omega, by rw [if_pos (by omega)], fun _ => rfl, fun _ h => by omega⟩

theorem retryExhaustion_failed_at_maxRetries_witness :
    (failCycles 2 "SomeEvent"
        (.obj { roomId := "!r:example.org", body := "hi", format := "plain" })
        "network down" 2).row.map ClaimRow.status = some .failed ∧
    (failCycles 2 "SomeEvent"
        (.obj { roomId := "!r:example.org", body := "hi", format := "plain" })
        "network down" 2).emitted = 1 :=
  ⟨((retryExhaustion_failed_at_maxRetries 2 "SomeEvent" "network down"
      (.obj { roomId := "!r:example.org", body := "hi", format := "plain" })
      ⟨"!r:example.org", "hi", "plain"⟩ (by omega) rfl
      ⟨by decide, by decide, Or.inl (by decide)⟩ 2).1.mpr (by omega)),
   ((retryExhaustion_failed_at_maxRetries 2 "SomeEvent" "network down"
      (.obj { roomId := "!r:example.org", body := "hi", format := "plain" })
      ⟨"!r:example.org", "hi", "plain"⟩ (by omega) rfl
      ⟨by decide, by decide, Or.inl (by decide)⟩ 2).2.1.trans (by decide))⟩

/-- One fetched outbox row: id (also the key into the claim state),
event type and payload bytes. -/
structure BatchRow where
  id : Nat
  eventType : String
  payload : PayloadBytes

/-- One step of the `rows.Next()` iteration of `pollTable`: either a row
scans successfully or the scan reports a store-level error. -/
inductive FetchedRow where
  | ok (r : BatchRow)
  | scanError (e : String)

/-- Result of one `pollTable` run: the claim-state table (per event id),
the ids for which `processEvent` was invoked in order, and the error
`pollTable` returns to `pollOnce` (which aborts the poll cycle). -/
structure PollResult where
  store : Nat → EventState
  processed : List Nat
  tableError : Option String

/-- The batch loop of `pollTable`: for each fetched row run
`processEvent`; a per-row processing error is only logged and the loop
continues with the next row; a scan-level error aborts the remainder of
the batch and is returned.  `claimFails` and `sendOk` give, per event id,
whether the claim store is unreachable and whether dispatch succeeds. -/
def pollTable (maxRetries : Nat) (claimFails sendOk : Nat → Bool)
    (sendErrText : String) (now : Nat) :
    List FetchedRow → (Nat → EventState) → PollResult
  | [], store => ⟨store, [], none⟩
  | .scanError e :: _, store => ⟨store, [], some e⟩
  | .ok r :: rest, store =>
    let res := processEvent maxRetries (claimFails r.id) (sendOk r.id) r.eventType r.payload
      sendErrText (store r.id) now
    let store1 := fun i => if i = r.id then res.state else store i
    let tail := pollTable maxRetries claimFails sendOk sendErrText now rest store1
    ⟨tail.store, r.id :: tail.processed, tail.tableError⟩

/-- Counterexample to batch abortion on a per-row store error: in a batch
of two rows where the claim store is unreachable for row 1's `ClaimEvent`
(and reachable for row 2), row 2 is still processed — its claim row is
created and it is marked sent — while row 1's state is untouched. -/
theorem storeError_batch_continues_cex :
    (pollTable 3 (fun i => i == 1) (fun _ => true) "send error" 0
      [.ok ⟨1, "SomeEvent", .obj { roomId := "!a:example.org", body := "one", format := "plain" }⟩,
       .ok ⟨2, "SomeEvent", .obj { roomId := "!b:example.org", body := "two", format := "plain" }⟩]
      (fun _ => ⟨none, 0⟩)).processed = [1, 2] ∧
    (pollTable 3 (fun i => i == 1) (fun _ => true) "send error" 0
      [.ok ⟨1, "SomeEvent", .obj { roomId := "!a:example.org", body := "one", format := "plain" }⟩,
       .ok ⟨2, "SomeEvent", .obj { roomId := "!b:example.org", body := "two", format := "plain" }⟩]
      (fun _ => ⟨none, 0⟩)).store 2 = ⟨some ⟨1, .sent, none, 0⟩, 0⟩ ∧
    (pollTable 3 (fun i => i == 1) (fun _ => true) "send error" 0
      [.ok ⟨1, "SomeEvent", .obj { roomId := "!a:example.org", body := "one", format := "plain" }⟩,
       .ok ⟨2, "SomeEvent", .obj { roomId := "!b:example.org", body := "two", format := "plain" }⟩]
      (fun _ => ⟨none, 0⟩)).store 1 = ⟨none, 0⟩ := by
  decide

/-- Amended store-error propagation: a per-row store error (such as
`ClaimEvent` failing with the store unreachable) is logged and does not
abort the batch — `processEvent` is invoked for every successfully
scanned row regardless of such errors — whereas a scan-level store error
aborts the remainder of that table's batch immediately and is returned to
the poll cycle. -/
theorem pollTable_per_row_store_errors (maxRetries : Nat) (claimFails sendOk : Nat → Bool)
    (sendErrText : String) (now : Nat) :
    (∀ (rows : List BatchRow) (store : Nat → EventState),
      (pollTable maxRetries claimFails sendOk sendErrText now
        (rows.map FetchedRow.ok) store).processed = rows.map BatchRow.id ∧
      (pollTable maxRetries claimFails sendOk sendErrText now
        (rows.map FetchedRow.ok) store).tableError = none) ∧
    (∀ (e : String) (rest : List FetchedRow) (store : Nat → EventState),
      pollTable maxRetries claimFails sendOk sendErrText now
        (.scanError e :: rest) store = ⟨store, [], some e⟩) := by
  constructor
  · intro rows
    induction rows with
    | nil => intro store; exact ⟨rfl, rfl⟩
    | cons r rest ih =>
      intro store
      constructor
      · simp only [List.map_cons, pollTable]
        exact congrArg (List.cons r.id) (ih _).1
      · simp only [List.map_cons, pollTable]
        exact (ih _).2
  · intro e rest store
    rfl

/-- In-memory membership state of the matrix client: the static allow-list
and the set of rooms the session is recorded as joined to (list-encoded
sets; membership is what matters). -/
structure MatrixState where
  allowedRooms : List String
  joinedRooms : List String
deriving DecidableEq, Repr

/-- The `isAllowed` check: an empty allow-list permits nothing; otherwise
membership in the allow-list. -/
def isAllowed (st : MatrixState) (roomId : String) : Bool :=
  if st.allowedRooms.isEmpty then false
  else st.allowedRooms.contains roomId

/-- The `isJoined` check: membership in the joined-room set. -/
def isJoined (st : MatrixState) (roomId : String) : Bool :=
  st.joinedRooms.contains roomId

/-- The `setJoined` update: record the room as joined. -/
def setJoined (st : MatrixState) (roomId : String) : MatrixState :=
  { st with joinedRooms := roomId :: st.joinedRooms }

/-- Errors a send can fail with, one per early return of `SendMessage` and
`ensureJoined`. -/
inductive SendError where
  | emptyRoomId
  | notAllowed
  | joinFailed
  | sendRejected
deriving DecidableEq, Repr

/-- The rich-format marker `SendMessage` attaches to the message content:
`html` and `markdown` set a platform format string alongside the raw body,
`plain` (or anything else) sends the body as-is. -/
structure MessageContent where
  body : String
  formatMarker : Option String
  formattedBody : Option String
deriving DecidableEq, Repr

/-- Builds the message content exactly as `SendMessage` does. -/
def buildContent (body format : String) : MessageContent :=
  if format = "html" then ⟨body, some "org.matrix.custom.html", some body⟩
  else if format = "markdown" then ⟨body, some "org.matrix.custom.markdown", some body⟩
  else ⟨body, none, none⟩

/-- The `ensureJoined` admission step: already joined is a no-op; a room
not in the allow-list is refused with `notAllowed` before any join call;
otherwise a join is attempted (`joinOk` models the platform's answer) and
on success the membership set is updated.  The returned flag records
whether a `JoinRoom` call was issued. -/
def ensureJoined (joinOk : Bool) (st : MatrixState) (roomId : String) :
    Option SendError × MatrixState × Bool :=
  if isJoined st roomId then (none, st, false)
  else if !isAllowed st roomId then (some .notAllowed, st, false)
  else if joinOk then (none, setJoined st roomId, true)
  else (some .joinFailed, st, true)

/-- Observable outcome of one `SendMessage` call: result, final membership
state, whether a join call was issued, and the content handed to the
platform send call when one was made. -/
structure SendOutcome where
  result : Option SendError
  state : MatrixState
  joinAttempted : Bool
  sentContent : Option MessageContent
deriving DecidableEq, Repr

/-- The `SendMessage` operation: reject an empty room id, ensure
membership via `ensureJoined`, then send the built content (`sendOk`
models the platform accepting the event). -/
def sendMessage (joinOk sendOk : Bool) (st : MatrixState) (roomId body format : String) :
    SendOutcome :=
  if roomId = "" then ⟨some .emptyRoomId, st, false, none⟩
  else
    let ej := ensureJoined joinOk st roomId
    match ej.1 with
    | some e => ⟨some e, ej.2.1, ej.2.2, none⟩
    | none =>
      if sendOk then ⟨none, ej.2.1, ej.2.2, some (buildContent body format)⟩
      else ⟨some .sendRejected, ej.2.1, ej.2.2, some (buildContent body format)⟩

/-- Allow-list enforcement: sending to a room that is neither in the
joined-room set nor in the allow-list fails without issuing a join call,
without sending any content, and without changing the membership state;
when the room id is non-empty the error is precisely `notAllowed`. -/
theorem send_notAllowed_no_join (joinOk sendOk : Bool) (st : MatrixState)
    (roomId body format : String)
    (hj : isJoined st roomId = false) (ha : isAllowed st roomId = false) :
    (sendMessage joinOk sendOk st roomId body format).result ≠ none ∧
    (sendMessage joinOk sendOk st roomId body format).joinAttempted = false ∧
    (sendMessage joinOk sendOk st roomId body format).sentContent = none ∧
    (sendMessage joinOk sendOk st roomId body format).state = st ∧
    (roomId ≠ "" →
      (sendMessage joinOk sendOk st roomId body format).result = some .notAllowed) := by
  by_cases h0 : roomId = ""
  · simp [sendMessage, h0]
  · have : sendMessage joinOk sendOk st roomId body format =
        ⟨some .notAllowed, st, false, none⟩ := by
      unfold sendMessage
      rw [if_neg h0]
      dsimp only
      unfold ensureJoined
      rw [hj, ha]
      rfl
    rw [this]
    exact ⟨by simp, rfl, rfl, rfl, fun _ => rfl⟩

theorem send_notAllowed_no_join_witness :
    (sendMessage true true ⟨["!allowed:example.org"], ["!joined:example.org"]⟩
      "!other:example.org" "hello" "plain").result = some .notAllowed ∧
    (sendMessage true true ⟨["!allowed:example.org"], ["!joined:example.org"]⟩
      "!other:example.org" "hello" "plain").joinAttempted = false ∧
    (sendMessage true true ⟨["!allowed:example.org"], ["!joined:example.org"]⟩
      "!other:example.org" "hello" "plain").state =
      ⟨["!allowed:example.org"], ["!joined:example.org"]⟩ := by
  have h := send_notAllowed_no_join true true
    ⟨["!allowed:example.org"], ["!joined:example.org"]⟩
    "!other:example.org" "hello" "plain" (by decide) (by decide)
  exact ⟨h.2.2.2.2 (by decide), h.2.1, h.2.2.2.1⟩

/-- One operation against the claim store for a fixed event id, as issued
by the consumer: a claim, or one of the three mark updates. -/
inductive StoreOp where
  | claimOp
  | sentOp
  | retryOp (e : String)
  | failedOp (e : String)
deriving DecidableEq, Repr

/-- True for the operations that move a row to a terminal status. -/
def StoreOp.isTerminalMark : StoreOp → Bool
  | .sentOp => true
  | .failedOp _ => true
  | _ => false

/-- True for claim operations. -/
def StoreOp.isClaim : StoreOp → Bool
  | .claimOp => true
  | _ => false

/-- Runs a sequence of store operations on one event id, starting from the
given row state, collecting the `(attempts, claimed)` results of the claim
calls in order (the timestamp advances by one per operation). -/
def runOps : Option ClaimRow → Nat → List StoreOp → Option ClaimRow × List (Nat × Bool)
  | st, _, [] => (st, [])
  | st, now, .claimOp :: rest =>
    let res := claimEvent st now
    let tail := runOps res.2.2 (now + 1) rest
    (tail.1, (res.1, res.2.1) :: tail.2)
  | st, now, .sentOp :: rest => runOps (markSent st now) (now + 1) rest
  | st, now, .retryOp e :: rest => runOps (markRetry st e now) (now + 1) rest
  | st, now, .failedOp e :: rest => runOps (markFailed st e now) (now + 1) rest

/-- The attempts value recorded for an id: `0` when no row exists. -/
def attemptsOf : Option ClaimRow → Nat
  | none => 0
  | some r => r.attempts

/-- Generalised attempt monotonicity: starting from an absent or pending
row with `a` attempts, a trace containing no terminal mark yields claim
results `(a+1, true), (a+2, true), ...` — one increment per successful
claim. -/
theorem runOps_claim_results (ops : List StoreOp)
    (h : ∀ op ∈ ops, op.isTerminalMark = false) :
    ∀ (st : Option ClaimRow) (now : Nat),
      (st = none ∨ ∃ r, st = some r ∧ r.status = .pending) →
      (runOps st now ops).2 =
        (List.range' (attemptsOf st + 1) (ops.countP StoreOp.isClaim)).map (fun a => (a, true)) := by
  induction ops with
  | nil => intro st now _; rfl
  | cons op rest ih =>
    intro st now hst
    have hrest : ∀ op ∈ rest, op.isTerminalMark = false :=
      fun o ho => h o (List.mem_cons_of_mem op ho)
    match op with
    | .claimOp =>
      rcases hst with hn | ⟨r, hr, hp⟩
      · subst hn
        show ((1 : Nat), true) :: (runOps (some ⟨1, .pending, none, now⟩) (now + 1) rest).2 = _
        rw [ih hrest (some ⟨1, .pending, none, now⟩) (now + 1)
          (Or.inr ⟨⟨1, .pending, none, now⟩, rfl, rfl⟩)]
        simp [List.countP_cons, StoreOp.isClaim, attemptsOf, List.range'_succ]
      · subst hr
        have hcl : claimEvent (some r) now =
            (r.attempts + 1, true,
              some { r with attempts := r.attempts + 1, status := .pending, updatedAt := now }) := by
          simp [claimEvent, hp]
        show ((claimEvent (some r) now).1, (claimEvent (some r) now).2.1) ::
            (runOps (claimEvent (some r) now).2.2 (now + 1) rest).2 = _
        rw [hcl]
        rw [ih hrest _ (now + 1) (Or.inr ⟨_, rfl, rfl⟩)]
        simp [List.countP_cons, StoreOp.isClaim, attemptsOf, List.range'_succ]
    | .retryOp e =>
      rcases hst with hn | ⟨r, hr, hp⟩
      · subst hn
        show (runOps (markRetry none e now) (now + 1) rest).2 = _
        rw [show markRetry none e now = none from rfl]
        rw [ih hrest none (now + 1) (Or.inl rfl)]
        simp [List.countP_cons, StoreOp.isClaim, attemptsOf]
      · subst hr
        show (runOps (markRetry (some r) e now) (now + 1) rest).2 = _
        rw [markRetry_frame]
        rw [ih hrest _ (now + 1) (Or.inr ⟨_, rfl, rfl⟩)]
        simp [List.countP_cons, StoreOp.isClaim, attemptsOf]
    | .sentOp =>
      have hc := h .sentOp (List.mem_cons_self _ _)
      simp [StoreOp.isTerminalMark] at hc
    | .failedOp e =>
      have hc := h (.failedOp e) (List.mem_cons_self _ _)
      simp [StoreOp.isTerminalMark] at hc

/-- Attempt monotonicity: for a sequence of store operations on one id
containing no terminal mark (the event has not reached a terminal state),
starting unclaimed, the claim results are exactly
`(1, true), (2, true), ..., (k, true)`: every claim succeeds and
`attempts` starts at 1 and is strictly increasing by exactly one per
successful claim. -/
theorem claim_attempts_monotone (ops : List StoreOp) (now : Nat)
    (h : ∀ op ∈ ops, op.isTerminalMark = false) :
    (runOps none now ops).2 =
      (List.range' 1 (ops.countP StoreOp.isClaim)).map (fun a => (a, true)) :=
  runOps_claim_results ops h none now (Or.inl rfl)

theorem claim_attempts_monotone_witness :
    (runOps none 0 [.claimOp, .retryOp "err", .claimOp, .retryOp "err", .claimOp]).2 =
      [(1, true), (2, true), (3, true)] :=
  (claim_attempts_monotone [.claimOp, .retryOp "err", .claimOp, .retryOp "err", .claimOp] 0
    (by decide)).trans (by decide)

end AdapterMatrix
